import Mathlib

/-!
Shallow embedding of the iteration control plane of the freqtrade lottery
strategy agent (src/agent/*.py), for checking the natural-language
specification against the code.

Conventions of the embedding:
* Python floats are modelled as exact rationals (`ℚ`); `math.sqrt` is
  modelled as `Real.sqrt` on the reals.
* Python `round(x, d)` (round half to even) is modelled by `roundTo d`.
* Python dicts of numbers are modelled as association lists
  (`List (String × ℚ)`) looked up with `getD` (first match, default
  otherwise), mirroring `dict.get(key, default)`.
* The filesystem touched by `StrategyModifier` is modelled as an
  association list from path to file content; `os.replace`/`shutil.copy2`
  become `fsWrite`.  Modification times are modelled by list recency.
* Number rendering inside human-readable messages is embedded with
  `fmtFixed` (fixed-point rendering of a rational), standing for Python's
  f-string formatting; no claim depends on the exact digits rendered.
-/

/-- Association list standing for a Python dict with string keys and
numeric values. -/
abbrev AListQ : Type := List (String × ℚ)

/-- Embedding of Python `d.get(key, default)` for numeric dicts. -/
def getD : AListQ → String → ℚ → ℚ
  | [], _, d => d
  | (k', v) :: t, k, d => if k' == k then v else getD t k d

/-- Round a rational to the nearest integer, ties to even — the rounding
used by Python's builtin `round`. -/
def roundHE (x : ℚ) : ℤ :=
  let n := ⌊x⌋
  let f := x - n
  if f < 1/2 then n
  else if 1/2 < f then n + 1
  else if n % 2 = 0 then n else n + 1

/-- Embedding of Python `round(x, d)` on the rationals. -/
def roundTo (d : ℕ) (x : ℚ) : ℚ := (roundHE (x * 10 ^ d) : ℚ) / 10 ^ d

/-- Left-pad a string of digits with zeros up to width `w`
(Python `%0wd`). -/
def padZeros (w : ℕ) (s : String) : String :=
  if s.length < w then String.mk (List.replicate (w - s.length) '0') ++ s
  else s

/-- Fixed-point rendering of a rational with `d` decimal places,
embedding Python's `f"{x:.df}"` formatting. -/
def fmtFixed (d : ℕ) (x : ℚ) : String :=
  let n := roundHE (x * 10 ^ d)
  let sign := if n < 0 then "-" else ""
  let a := n.natAbs
  let ip := toString (a / 10 ^ d)
  if d = 0 then sign ++ ip
  else sign ++ ip ++ "." ++ padZeros d (toString (a % 10 ^ d))

/-- The substring relation on strings (`needle in haystack`). -/
def substrP (s t : String) : Prop := s.data <:+: t.data

instance (s t : String) : Decidable (substrP s t) :=
  inferInstanceAs (Decidable (s.data <:+: t.data))

/-! ### Evaluator (src/agent/evaluator.py) -/

/-- Metric keys used by the evaluator (`metrics` dict from the backtest
runner). -/
def kWtr : String := "weekly_target_hit_rate"

def kMdd : String := "max_drawdown_pct"

def kTrades : String := "total_trades"

def kStake : String := "stake_limit_hit_count"

def kMonthly : String := "monthly_net_profit_avg"

def kMaxLoss : String := "max_monthly_loss"

def kDur : String := "avg_trade_duration_hours"

def kAvgProfit : String := "avg_profit_per_trade_pct"

/-- Embeds `PassCriteria` dataclass: configurable pass/fail thresholds. -/
structure PassCriteria where
  weekly_target_hit_rate_min : ℚ := 1/4
  max_drawdown_pct_max : ℚ := 95
  total_trades_min : ℚ := 50
  stake_limit_hit_count_max : ℚ := 0
  monthly_net_profit_avg_min : ℚ := 0

/-- Embeds `ScoreWeights` dataclass: weights of the composite score. -/
structure ScoreWeights where
  monthly_avg_profit_w : ℚ := 4/10
  weekly_target_hit_rate_w : ℚ := 3/10
  max_monthly_loss_w : ℚ := 2/10
  trade_efficiency_w : ℚ := 1/10

/-- Embeds `EvalResult` dataclass. -/
structure EvalResult where
  passed : Bool
  score : ℚ
  gate_failures : List String := []
  score_breakdown : AListQ := []
  metrics : AListQ := []
  is_overfitting : Bool := false
  recommendation : String := ""

/-- Evaluator configuration (`Evaluator.__init__`). -/
structure EvaluatorCfg where
  criteria : PassCriteria := {}
  weights : ScoreWeights := {}
  oos_score_ratio_min : ℚ := 6/10

def msgGateWtr (wtr min : ℚ) : String :=
  kWtr ++ "=" ++ fmtFixed 2 (wtr * 100) ++ "% < " ++ fmtFixed 2 (min * 100) ++ "%"

def msgGateMdd (mdd max : ℚ) : String :=
  kMdd ++ "=" ++ fmtFixed 1 mdd ++ "% > " ++ fmtFixed 1 max ++ "%"

def msgGateTrades (trades min : ℚ) : String :=
  kTrades ++ "=" ++ fmtFixed 0 trades ++ " < " ++ fmtFixed 0 min

def msgGateStake (hits max : ℚ) : String :=
  kStake ++ "=" ++ fmtFixed 0 hits ++ " > " ++ fmtFixed 0 max

def msgGateMonthly (avg min : ℚ) : String :=
  kMonthly ++ "=" ++ fmtFixed 2 avg ++ " <= " ++ fmtFixed 2 min

/-- Embeds `Evaluator._gate_check`: ordered hard pass/fail checks, each failing
check appending one failure message. -/
def gate_check (c : PassCriteria) (m : AListQ) : List String :=
  let wtr := getD m kWtr 0
  let f1 : List String :=
    if wtr < c.weekly_target_hit_rate_min then
      [msgGateWtr wtr c.weekly_target_hit_rate_min] else []
  let mdd := getD m kMdd 0
  let f2 : List String :=
    if mdd > c.max_drawdown_pct_max then
      [msgGateMdd mdd c.max_drawdown_pct_max] else []
  let trades := getD m kTrades 0
  let f3 : List String :=
    if trades < c.total_trades_min then
      [msgGateTrades trades c.total_trades_min] else []
  let hits := getD m kStake 0
  let f4 : List String :=
    if hits > c.stake_limit_hit_count_max then
      [msgGateStake hits c.stake_limit_hit_count_max] else []
  let avg := getD m kMonthly 0
  let f5 : List String :=
    if avg ≤ c.monthly_net_profit_avg_min then
      [msgGateMonthly avg c.monthly_net_profit_avg_min] else []
  f1 ++ f2 ++ f3 ++ f4 ++ f5

def kBreakProfit : String := "monthly_profit_component"

def kBreakWtr : String := "weekly_hit_rate_component"

def kBreakLoss : String := "max_loss_penalty"

def kBreakEff : String := "trade_efficiency_component"

/-- Embeds `Evaluator._calculate_score`: composite score (rounded to 2 decimals)
and its unrounded breakdown. -/
def calculate_score (w : ScoreWeights) (m : AListQ) : ℚ × AListQ :=
  let monthly_profit := getD m kMonthly 0
  let wtr := getD m kWtr 0
  let max_loss := getD m kMaxLoss 0
  let avg_duration0 := getD m kDur 24
  let avg_duration := if avg_duration0 ≤ 0 then 24 else avg_duration0
  let s1 := monthly_profit * w.monthly_avg_profit_w
  let s2 := wtr * 100 * w.weekly_target_hit_rate_w
  let s3 := -max_loss * w.max_monthly_loss_w
  let s4 := 1 / avg_duration * w.trade_efficiency_w * 100
  let total := s1 + s2 + s3 + s4
  (roundTo 2 total,
   [(kBreakProfit, s1), (kBreakWtr, s2), (kBreakLoss, s3), (kBreakEff, s4)])

def recLowTrades (trades : ℚ) : String :=
  "交易次数不足(" ++ fmtFixed 0 trades ++ "), 建议放宽入场条件或增加交易对"

def recVeryLowWtr : String :=
  "周达标率过低, 考虑: 1) 降低目标倍数 2) 增加杠杆(风险更高) 3) 优化入场时机"

def recLowWtr : String :=
  "周达标率偏低, 建议优化出场策略(trailing stop 参数)"

def recNegProfit : String := "平均每笔亏损, 信号质量需要根本性改善"

def recLongHold (duration : ℚ) : String :=
  "平均持仓" ++ fmtFixed 0 duration ++ "小时过长, 考虑缩短时间止损"

def recShortHold : String := "持仓时间过短(<30min), 可能频繁被止损扫出"

def recGood : String := "策略表现良好, 可尝试微调 trailing stop 参数优化"

def recMediocre : String := "策略中等, 建议调整入场/出场参数组合"

def sRecSep : String := " | "

/-- Embeds `Evaluator._generate_recommendation`: rule-based ordered heuristic
messages, joined with a separator; never empty. -/
def generate_recommendation (m : AListQ) (score : ℚ) : String :=
  let trades := getD m kTrades 0
  let wtr := getD m kWtr 0
  let avg_profit := getD m kAvgProfit 0
  let duration := getD m kDur 0
  let r1 : List String := if trades < 50 then [recLowTrades trades] else []
  let r2 : List String :=
    if wtr < 1/10 then [recVeryLowWtr]
    else if wtr < 1/4 then [recLowWtr] else []
  let r3 : List String := if avg_profit < 0 then [recNegProfit] else []
  let r4 : List String :=
    if duration > 72 then [recLongHold duration]
    else if duration < 1/2 then [recShortHold] else []
  let recs := r1 ++ r2 ++ r3 ++ r4
  let recs :=
    if recs.isEmpty then (if score > 50 then [recGood] else [recMediocre])
    else recs
  String.intercalate sRecSep recs

/-- Embeds `Evaluator.evaluate`: gate checks + scoring + recommendation. -/
def evaluate (cfg : EvaluatorCfg) (m : AListQ) : EvalResult :=
  let gate_failures := gate_check cfg.criteria m
  let sb := calculate_score cfg.weights m
  let passed := gate_failures.length == 0
  { passed := passed
    score := sb.1
    gate_failures := gate_failures
    score_breakdown := sb.2
    metrics := m
    recommendation := generate_recommendation m sb.1 }

def msgIsZero : String := "IS score is 0, cannot evaluate"

def sCannotEvaluate : String := "cannot evaluate"

def sOverfitting : String := "OVERFITTING"

def sPassed : String := "PASSED"

def msgOverfit (ratio threshold isScore oosScore : ℚ) : String :=
  "OVERFITTING: OOS/IS ratio = " ++ fmtFixed 2 ratio ++ " < " ++
  fmtFixed 2 threshold ++ " threshold. IS score=" ++ fmtFixed 2 isScore ++
  ", OOS score=" ++ fmtFixed 2 oosScore

def msgWfPassed (ratio threshold : ℚ) : String :=
  "Walk-forward PASSED: OOS/IS ratio = " ++ fmtFixed 2 ratio ++
  " (threshold: " ++ fmtFixed 2 threshold ++ ")"

/-- Embeds `Evaluator.compare_is_oos`: walk-forward overfitting comparison. -/
def compare_is_oos (cfg : EvaluatorCfg) (is_result oos_result : EvalResult) :
    Bool × String :=
  if is_result.score = 0 then (false, msgIsZero)
  else
    let ratio := if is_result.score > 0 then oos_result.score / is_result.score else 0
    if ratio < cfg.oos_score_ratio_min then
      (false, msgOverfit ratio cfg.oos_score_ratio_min is_result.score oos_result.score)
    else
      (true, msgWfPassed ratio cfg.oos_score_ratio_min)

/-- Embeds `Evaluator.is_improvement`: strict improvement over the margin. -/
def is_improvement (current previous : EvalResult) (min_improvement : ℚ) : Bool :=
  current.score > previous.score + min_improvement

/-! ### StrategyModifier (src/agent/strategy_modifier.py)

The filesystem is modelled as an association list from path to content;
`shutil.copy2` and the temp-file-plus-rename of `_atomic_write` both
become `fsWrite`.  Modification-time recency (used by `rollback` to pick
the newest matching backup) is modelled by position in the list: later
entries are more recent.  `ast.parse` (the host-language parser) is an
external oracle, passed in as `parse : String → Option String` returning
`some errorMessage` on a syntax error.  The `try/except` around the
atomic write is modelled by the `writeOk` flag. -/

abbrev FS : Type := List (String × String)

/-- Look a path up in the modelled filesystem (`os.path.exists` +
reading). -/
def fsGet : FS → String → Option String
  | [], _ => none
  | (p, c) :: t, q => if p == q then some c else fsGet t q

/-- Write a file (create or overwrite). -/
def fsWrite : FS → String → String → FS
  | [], p, c => [(p, c)]
  | (p', c') :: t, p, c =>
      if p' == p then (p', c) :: t else (p', c') :: fsWrite t p c

def isPyWs (c : Char) : Bool :=
  c == ' ' || c == '\t' || c == '\n' || c == '\r' || c == '\x0b' || c == '\x0c'

/-- Match a literal at the head of a character list, returning the
remainder on success. -/
def matchLit : List Char → List Char → Option (List Char)
  | [], s => some s
  | _ :: _, [] => none
  | l :: lt, c :: ct => if l == c then matchLit lt ct else none

def isPrefixL : List Char → List Char → Bool
  | [], _ => true
  | _ :: _, [] => false
  | a :: at', b :: bt => a == b && isPrefixL at' bt

def isSuffixL (pat s : List Char) : Bool := isPrefixL pat.reverse s.reverse

/-- Substring test on character lists (used for `re.search` with a
literal pattern). -/
def containsSub (pat : List Char) : List Char → Bool
  | [] => isPrefixL pat []
  | s@(_ :: t) => isPrefixL pat s || containsSub pat t

def toLowerL (s : List Char) : List Char := s.map Char.toLower

def natOfDigits (ds : List Char) : ℕ :=
  ds.foldl (fun a c => a * 10 + (c.toNat - 48)) 0

def sLeverage : String := "leverage"

def sStoploss : String := "stoploss"

/-- One attempted match of the regex `leverage\s*[=:]\s*(\d+)` at the
head of the input, returning the captured number and the remainder after
the match. -/
def matchLev (s : List Char) : Option (ℕ × List Char) :=
  match matchLit sLeverage.data s with
  | none => none
  | some s1 =>
    match s1.dropWhile isPyWs with
    | [] => none
    | c :: s3 =>
      if c == '=' || c == ':' then
        let s4 := s3.dropWhile isPyWs
        let digits := s4.takeWhile Char.isDigit
        if digits.isEmpty then none
        else some (natOfDigits digits, s4.drop digits.length)
      else none

def scanLevAux : ℕ → List Char → List ℕ
  | 0, _ => []
  | _ + 1, [] => []
  | fuel + 1, s@(_ :: rest) =>
    match matchLev s with
    | some (n, rem) => n :: scanLevAux fuel rem
    | none => scanLevAux fuel rest

/-- Embeds `re.findall(r"leverage\s*[=:]\s*(\d+)", code)`: every non-overlapping
match, scanning left to right. -/
def scanLeverage (s : List Char) : List ℕ := scanLevAux s.length s

def isDigitDot (c : Char) : Bool := c.isDigit || c == '.'

/-- One attempted match of `stoploss\s*=\s*(-?[\d.]+)` at the head of the
input, returning the captured token and the remainder. -/
def matchSl (s : List Char) : Option (List Char × List Char) :=
  match matchLit sStoploss.data s with
  | none => none
  | some s1 =>
    match s1.dropWhile isPyWs with
    | c :: s3 =>
      if c == '=' then
        let s4 := s3.dropWhile isPyWs
        match s4 with
        | '-' :: s5 =>
          let body := s5.takeWhile isDigitDot
          if body.isEmpty then none
          else some ('-' :: body, s5.drop body.length)
        | _ =>
          let body := s4.takeWhile isDigitDot
          if body.isEmpty then none
          else some (body, s4.drop body.length)
      else none
    | [] => none

def scanSlAux : ℕ → List Char → List (List Char)
  | 0, _ => []
  | _ + 1, [] => []
  | fuel + 1, s@(_ :: rest) =>
    match matchSl s with
    | some (tok, rem) => tok :: scanSlAux fuel rem
    | none => scanSlAux fuel rest

/-- Embeds `re.findall(r"stoploss\s*=\s*(-?[\d.]+)", code)`: the raw captured
tokens. -/
def scanStoploss (s : List Char) : List (List Char) := scanSlAux s.length s

def parsePyFloatPos (body : List Char) : Option ℚ :=
  let ip := body.takeWhile Char.isDigit
  match body.drop ip.length with
  | [] => if ip.isEmpty then none else some (natOfDigits ip : ℚ)
  | '.' :: fp =>
    if fp.all Char.isDigit then
      if ip.isEmpty && fp.isEmpty then none
      else some ((natOfDigits ip : ℚ) + (natOfDigits fp : ℚ) / 10 ^ fp.length)
    else none
  | _ => none

/-- Python `float()` applied to a token captured by `-?[\d.]+`: `none`
models the `ValueError` raised on malformed tokens such as `1.2.3`. -/
def parsePyFloat : List Char → Option ℚ
  | '-' :: body => (parsePyFloatPos body).map (fun q => -q)
  | body => parsePyFloatPos body

def parseSlToks : List (List Char) → Option (List ℚ)
  | [] => some []
  | tok :: t =>
    match parsePyFloat tok, parseSlToks t with
    | some q, some qs => some (q :: qs)
    | _, _ => none

def MAX_LEVERAGE : ℕ := 20

def MIN_STOPLOSS : ℚ := -(98/100)

def pWBC : String := "WeeklyBudgetController"

def pCanOpen : String := "can_open_trade"

def pConfirm : String := "confirm_trade_entry"

def REQUIRED_PATTERNS : List String := [pWBC, pCanOpen, pConfirm]

def pCompound : String := "compound"

def pReinvest : String := "reinvest"

def pStakeBalance : String := "stake_amount\\s*=\\s*.*balance"

def sStakeAmount : String := "stake_amount"

def sBalance : String := "balance"

def reqMissingMsg (p : String) : String :=
  "Required pattern missing: " ++ p ++
  " — WeeklyBudgetController integration must be preserved"

def levErrMsg (lev : ℕ) : String :=
  "Leverage " ++ toString lev ++ "x exceeds maximum " ++
  toString MAX_LEVERAGE ++ "x"

def levWarnMsg (lev : ℕ) : String :=
  "Leverage " ++ toString lev ++
  "x is within allowed range but > 10x. OP recommends 3-10x."

def slErrMsg (sl : ℚ) : String :=
  "Stoploss " ++ fmtFixed 2 sl ++ " is wider than minimum " ++
  fmtFixed 2 MIN_STOPLOSS

def compoundWarnMsg (p : String) : String :=
  "Possible compounding pattern detected: " ++ p ++
  " — OP strategy is non-compounding"

def containsCI (pat : String) (cs : List Char) : Bool :=
  containsSub (toLowerL pat.data) (toLowerL cs)

/-- One attempted match of `stake_amount\s*=\s*.*balance` (IGNORECASE, on
an already-lowercased input) anchored at the head: after `=` the `\s*`
may cross newlines but `.*` may not, so `balance` must occur on the line
where the non-whitespace text resumes. -/
def stakeBalanceAt (s : List Char) : Bool :=
  match matchLit sStakeAmount.data s with
  | none => false
  | some s1 =>
    match s1.dropWhile isPyWs with
    | '=' :: s3 =>
      let line := (s3.dropWhile isPyWs).takeWhile (fun c => c != '\n')
      containsSub sBalance.data line
    | _ => false

def stakeBalanceHit : List Char → Bool
  | [] => false
  | s@(_ :: t) => stakeBalanceAt s || stakeBalanceHit t

/-- Embeds `StrategyModifier._safety_check`: `(errors, warnings)`, or `none` for
the `ValueError` Python's `float()` raises on a malformed stoploss
token. -/
def safety_check (code : String) : Option (List String × List String) :=
  let cs := code.data
  let reqErrors := REQUIRED_PATTERNS.filterMap
    (fun p => if substrP p code then none else some (reqMissingMsg p))
  let levs := scanLeverage cs
  let levErrors := levs.filterMap
    (fun lev => if MAX_LEVERAGE < lev then some (levErrMsg lev) else none)
  let levWarnings := levs.filterMap
    (fun lev => if MAX_LEVERAGE < lev then none
      else if 10 < lev then some (levWarnMsg lev) else none)
  match parseSlToks (scanStoploss cs) with
  | none => none
  | some sls =>
    let slErrors := sls.filterMap
      (fun sl => if sl < MIN_STOPLOSS then some (slErrMsg sl) else none)
    let cw1 : List String :=
      if containsCI pCompound cs then [compoundWarnMsg pCompound] else []
    let cw2 : List String :=
      if containsCI pReinvest cs then [compoundWarnMsg pReinvest] else []
    let cw3 : List String :=
      if stakeBalanceHit (toLowerL cs) then [compoundWarnMsg pStakeBalance] else []
    some (reqErrors ++ levErrors ++ slErrors,
          levWarnings ++ cw1 ++ cw2 ++ cw3)

def sStratDir : String := "strategies"

def sBackupDir : String := "results/strategy_versions"

def sStratFile : String := "LotteryMindsetStrategy.py"

def sSlash : String := "/"

def sRoundPrefix : String := "round_"

def sUnderscore : String := "_"

def sPyExt : String := ".py"

/-- The directories and filename of `StrategyModifier.__init__`, with the
constructor's defaults. -/
structure ModifierCfg where
  strategy_dir : String := sStratDir
  backup_dir : String := sBackupDir
  strategy_filename : String := sStratFile

/-- Embeds `os.path.join(strategy_dir, strategy_filename)`. -/
def ModifierCfg.strategyPath (m : ModifierCfg) : String :=
  m.strategy_dir ++ sSlash ++ m.strategy_filename

def isWordChar (c : Char) : Bool := c.isAlphanum || c == '_'

/-- Embeds `re.sub(r"[^\w]", "_", description)[:50] if description else ""`. -/
def safeDesc (d : String) : String :=
  if d == "" then ""
  else String.mk ((d.data.map (fun c => if isWordChar c then c else '_')).take 50)

def pad3 (n : ℕ) : String := padZeros 3 (toString n)

/-- The backup filename `round_{round_num:03d}_{ts}_{safe_desc}.py`. -/
def backupFilename (round_num : ℕ) (ts desc : String) : String :=
  sRoundPrefix ++ pad3 round_num ++ sUnderscore ++ ts ++ sUnderscore ++
  safeDesc desc ++ sPyExt

/-- The backup path chosen by `StrategyModifier._backup` (`ts` stands for
the `datetime.now()` timestamp string). -/
def backupPath (cfg : ModifierCfg) (round_num : ℕ) (ts desc : String) : String :=
  cfg.backup_dir ++ sSlash ++ backupFilename round_num ts desc

/-- Embeds `StrategyModifier._backup`: copy the live artifact (when it exists)
to a round-and-timestamp-tagged path; always returns the path. -/
def backup_step (cfg : ModifierCfg) (fs : FS) (round_num : ℕ)
    (ts desc : String) : String × FS :=
  let bp := backupPath cfg round_num ts desc
  match fsGet fs cfg.strategyPath with
  | some content => (bp, fsWrite fs bp content)
  | none => (bp, fs)

/-- Embeds `StrategyModifier._atomic_write`: the temp-file-plus-rename collapses
to a single write in a crash-free filesystem model. -/
def atomic_write (fs : FS) (path content : String) : FS :=
  fsWrite fs path content

/-- The `apply_patch` result dict. -/
structure PatchResult where
  success : Bool
  backup_path : String
  errors : List String
  warnings : List String

def msgWriteFailed : String := "Write failed"

def msgSyntaxErr (e : String) : String := "Syntax error: " ++ e

/-- Embeds `StrategyModifier.apply_patch`: syntax-validate, safety-check, back
up the current artifact, then overwrite it; `none` models an unhandled
exception escaping the safety check. -/
def apply_patch (cfg : ModifierCfg) (parse : String → Option String)
    (fs : FS) (new_code : String) (round_num : ℕ) (desc ts : String)
    (writeOk : Bool) : Option (PatchResult × FS) :=
  match parse new_code with
  | some err =>
    some ({ success := false, backup_path := "",
            errors := [msgSyntaxErr err], warnings := [] }, fs)
  | none =>
    match safety_check new_code with
    | none => none
    | some (errors, warnings) =>
      if errors.isEmpty then
        let bfs := backup_step cfg fs round_num ts desc
        if writeOk then
          some ({ success := true, backup_path := bfs.1, errors := [],
                  warnings := warnings },
                atomic_write bfs.2 cfg.strategyPath new_code)
        else
          let fs2 :=
            match fsGet bfs.2 bfs.1 with
            | some c => fsWrite bfs.2 cfg.strategyPath c
            | none => bfs.2
          some ({ success := false, backup_path := bfs.1,
                  errors := [msgWriteFailed], warnings := warnings }, fs2)
      else
        some ({ success := false, backup_path := "", errors := errors,
                warnings := warnings }, fs)

/-- Does a path match the glob `backup_dir/round_{round_num:03d}_*.py`
(the `*` never crosses a directory separator)? -/
def matchesBackup (cfg : ModifierCfg) (round_num : ℕ) (path : String) : Bool :=
  match matchLit (cfg.backup_dir ++ sSlash ++ sRoundPrefix ++ pad3 round_num ++
      sUnderscore).data path.data with
  | none => false
  | some rest => rest.all (fun c => c != '/') && isSuffixL sPyExt.data rest

/-- Embeds `StrategyModifier.rollback`: copy the newest backup tagged with the
round over the live artifact; `false` when no backup matches.  Newest by
modification time is modelled as last in the filesystem list. -/
def rollback (cfg : ModifierCfg) (fs : FS) (round_num : ℕ) : Bool × FS :=
  match (fs.filter (fun e => matchesBackup cfg round_num e.1)).getLast? with
  | none => (false, fs)
  | some e => (true, fsWrite fs cfg.strategyPath e.2)

/-! ### WeeklySettlementManager (src/agent/weekly_settlement.py) -/

/-- Python `l[-n:]`: the last `n` elements, or the whole list when
`n = 0`. -/
def pySliceLast {α : Type} (l : List α) (n : ℕ) : List α :=
  if n = 0 then l else l.drop (l.length - n)

/-- Embeds `WeeklySettlementManager.__init__` configuration. -/
structure SettleCfg where
  weekly_budget : ℚ := 100
  weekly_target : ℚ := 1000
  cooldown_threshold : ℕ := 3

def sTargetHit : String := "TARGET_HIT"

def sBudgetExhausted : String := "BUDGET_EXHAUSTED"

def sWeekEnd : String := "WEEK_END_SETTLED"

def sReset : String := "reset_budget_100"

def sCooldownDryrun : String := "cooldown_dryrun"

/-- Embeds `WeeklySettlementReport` dict. -/
structure SettleReport where
  week_id : String
  status : String
  weekly_pnl : ℚ
  reached_target : Bool
  exhausted_budget : Bool
  action_next_week : String
  cooldown_triggered : Bool
  deriving DecidableEq

/-- Embeds `WeeklySettlementManager._check_cooldown`: the most recent N settled
weeks all missed the target and all had strictly negative PnL. -/
def check_cooldown (cfg : SettleCfg) (history : List SettleReport) : Bool :=
  if history.length < cfg.cooldown_threshold then false
  else
    let tail := pySliceLast history cfg.cooldown_threshold
    tail.all (fun r => r.status != sTargetHit) &&
      tail.all (fun r => decide (r.weekly_pnl < 0))

/-- Embeds `WeeklySettlementManager.settle_week`: three-state classification in
fixed priority order, then the cooldown check over the history including
the week just settled.  The Python code appends the report dict to
`self.history` before the cooldown check and then mutates that same dict,
so the stored history entry is the returned (possibly cooldown-marked)
report. -/
def initial_report (cfg : SettleCfg) (week_id : String) (weekly_pnl : ℚ) :
    SettleReport :=
  let reached := decide (weekly_pnl ≥ cfg.weekly_target)
  let exhausted := decide (weekly_pnl ≤ -cfg.weekly_budget)
  let status :=
    if reached then sTargetHit
    else if exhausted then sBudgetExhausted
    else sWeekEnd
  { week_id := week_id, status := status, weekly_pnl := weekly_pnl,
    reached_target := reached, exhausted_budget := exhausted,
    action_next_week := sReset, cooldown_triggered := false }

def settle_week (cfg : SettleCfg) (history : List SettleReport)
    (week_id : String) (weekly_pnl : ℚ) : SettleReport × List SettleReport :=
  let report0 := initial_report cfg week_id weekly_pnl
  let hist1 := history ++ [report0]
  if check_cooldown cfg hist1 then
    let rep : SettleReport :=
      { report0 with
        cooldown_triggered := true
        action_next_week := sCooldownDryrun }
    (rep, history ++ [rep])
  else (report0, hist1)

/-! ### TargetOptimizer (src/agent/target_optimizer.py) -/

def DEFAULT_TARGET_PROFILE : AListQ :=
  [(kWtr, 1/4), (kMonthly, 100), (kMaxLoss, 200), (kMdd, 50)]

def DEFAULT_WEIGHTS : AListQ :=
  [(kWtr, 2), (kMonthly, 3/2), (kMaxLoss, 1), (kMdd, 1)]

/-- Embeds `TargetOptimizer.__init__` configuration. -/
structure OptimizerCfg where
  target_profile : AListQ := DEFAULT_TARGET_PROFILE
  fine_tune_threshold : ℚ := 3/10
  weights : AListQ := DEFAULT_WEIGHTS

def sFineTune : String := "fine_tune"

def sExplore : String := "explore"

def sDefaultLabel : String := "default"

/-- Metrics where lower is better: the delta is `current − target`
(positive = over the limit); otherwise `target − current` (positive =
shortfall). -/
def lowerIsBetter (k : String) : Bool := k == kMaxLoss || k == kMdd

/-- The signed deltas of `TargetOptimizer.compute_gap` (before the
6-decimal display rounding of the returned dict). -/
def mkDeltas (profile metrics : AListQ) : AListQ :=
  profile.map (fun p =>
    (p.1, if lowerIsBetter p.1 then getD metrics p.1 0 - p.2
          else p.2 - getD metrics p.1 0))

/-- Normalise a delta by its target (`delta / abs(target)` unless the
target is zero). -/
def normDelta (δ t : ℚ) : ℚ := if t ≠ 0 then δ / |t| else δ

/-- The accumulator of `TargetOptimizer._weighted_norm`: only strictly
positive deltas contribute, each normalised by its target and weighted. -/
def weighted_norm_sq (cfg : OptimizerCfg) (deltas : AListQ) : ℚ :=
  deltas.foldl (fun acc p =>
    if p.2 ≤ 0 then acc
    else acc + getD cfg.weights p.1 1 *
      normDelta p.2 (getD cfg.target_profile p.1 1) ^ 2) 0

/-- Embeds `TargetOptimizer._weighted_norm`: `math.sqrt` of the weighted
accumulator. -/
noncomputable def weighted_norm (cfg : OptimizerCfg) (deltas : AListQ) : ℝ :=
  Real.sqrt (weighted_norm_sq cfg deltas)

/-- Round half to even on the reals (Python `round` applied to the float
result of `math.sqrt`). -/
noncomputable def roundHEr (x : ℝ) : ℤ :=
  let n := ⌊x⌋
  let f := x - n
  if f < 1/2 then n
  else if 1/2 < f then n + 1
  else if n % 2 = 0 then n else n + 1

/-- Python `round(x, d)` on the reals. -/
noncomputable def roundToR (d : ℕ) (x : ℝ) : ℝ := (roundHEr (x * 10 ^ d) : ℝ) / 10 ^ d

/-- The `TargetGapVector` dict returned by `compute_gap`. -/
structure GapVector where
  round : ℕ
  target_profile_label : String
  deltas : AListQ
  weighted_norm : ℝ
  mode : String

/-- Embeds `TargetOptimizer.compute_gap`: deltas, weighted norm and mode.  The
returned dict rounds every delta and the weighted norm to 6 decimals; the
mode is decided on the unrounded norm. -/
noncomputable def compute_gap (cfg : OptimizerCfg) (current_metrics : AListQ)
    (round_num : ℕ) : GapVector :=
  let deltas := mkDeltas cfg.target_profile current_metrics
  let wn := weighted_norm cfg deltas
  let mode := if wn < (cfg.fine_tune_threshold : ℝ) then sFineTune else sExplore
  { round := round_num
    target_profile_label := sDefaultLabel
    deltas := deltas.map (fun p => (p.1, roundTo 6 p.2))
    weighted_norm := roundToR 6 wn
    mode := mode }

/-! ### Orchestrator (src/agent/orchestrator.py)

`run_iteration_loop` is embedded over an oracle
`roundFn : ℕ → IterRecord` abstracting `_run_single_round` (which calls
the external code-generation and backtest services) and an oracle
`wfFn : ℕ → Bool × String` abstracting `run_walk_forward`.  Only the
fields of the `IterationRound` dict that the termination logic and the
claims read are carried.  The overfitting branch's file rollback touches
only the strategy artifact, never the rounds list, so it does not appear
in the record-level model; the branch itself is guarded by the
`enable_walk_forward` flag `ewf`. -/

structure IterRecord where
  round : ℕ
  score : ℚ
  status : String
  next_action : String

def sSuccess : String := "success"

def sOverfitStatus : String := "overfitting"

def sStop : String := "STOP"

def sStopSep : String := "STOP: "

def sCommaSpace : String := ", "

def sScoresOpen : String := "No improvement in last "

def sScoresMid : String := " successful rounds (scores: ["

def sScoresClose : String := "])"

def staleMsg (limit : ℕ) (scores : List ℚ) : String :=
  sScoresOpen ++ toString limit ++ sScoresMid ++
  String.intercalate sCommaSpace (scores.map (fmtFixed 2)) ++ sScoresClose

/-- Python `all(scores[i] >= scores[i+1] for i in range(len(scores)-1))`. -/
def nonIncreasing : List ℚ → Bool
  | a :: b :: t => decide (b ≤ a) && nonIncreasing (b :: t)
  | _ => true

/-- Embeds `Orchestrator._check_termination`: stop when the last
`stale_rounds_limit` successful rounds show non-increasing scores. -/
def check_termination (limit : ℕ) (rounds : List IterRecord) : Bool × String :=
  if rounds.isEmpty then (false, "")
  else
    let successful := rounds.filter (fun r => r.status == sSuccess)
    if limit ≤ successful.length then
      let tail := pySliceLast successful limit
      let scores := tail.map (fun r => r.score)
      if nonIncreasing scores then (true, staleMsg limit scores)
      else (false, "")
    else (false, "")

/-- One loop iteration's record: the round result, then the walk-forward
overfitting rewrite when enabled. -/
def runRound (roundFn : ℕ → IterRecord) (ewf : Bool)
    (wfFn : ℕ → Bool × String) (n : ℕ) : IterRecord :=
  let r := roundFn n
  if ewf && (r.status == sSuccess) then
    let wf := wfFn n
    if wf.1 then r
    else { r with status := sOverfitStatus, next_action := wf.2 }
  else r

/-- Embeds `rounds[-1]["next_action"] = ...`. -/
def updateLast : List IterRecord → String → List IterRecord
  | [], _ => []
  | [r], na => [{ r with next_action := na }]
  | r :: s :: t, na => r :: updateLast (s :: t) na

def runLoopAux (limit : ℕ) (ewf : Bool) (wfFn : ℕ → Bool × String)
    (roundFn : ℕ → IterRecord) : ℕ → List IterRecord → List IterRecord
  | 0, rounds => rounds
  | fuel + 1, rounds =>
    let record := runRound roundFn ewf wfFn (rounds.length + 1)
    let rounds1 := rounds ++ [record]
    let chk := check_termination limit rounds1
    if chk.1 then updateLast rounds1 (sStopSep ++ chk.2)
    else runLoopAux limit ewf wfFn roundFn fuel rounds1

/-- Embeds `Orchestrator.run_iteration_loop`: up to `cap` rounds, stopping early
when `_check_termination` fires, in which case the last round's
`next_action` is overwritten with `"STOP: " ++ reason`. -/
def run_iteration_loop (cap limit : ℕ) (ewf : Bool)
    (wfFn : ℕ → Bool × String) (roundFn : ℕ → IterRecord) : List IterRecord :=
  runLoopAux limit ewf wfFn roundFn cap []

/-! ### Concrete instances used by witnesses and counterexamples -/

def mC5 : AListQ :=
  [(kWtr, 1/2), (kMdd, 10), (kTrades, 100), (kStake, 0), (kMonthly, 5)]

def wCfg : SettleCfg := {}

def sWk : String := "2026-W01"

def sW1 : String := "2026-W02"

def sW2 : String := "2026-W03"

def sW3 : String := "2026-W04"

def wHist1 : List SettleReport := (settle_week wCfg [] sW1 (-50)).2

def wHist2 : List SettleReport := (settle_week wCfg wHist1 sW2 (-60)).2

def wHistB2 : List SettleReport := (settle_week wCfg wHist1 sW2 1500).2

def sBoom : String := "boom"

def sEmpty : String := ""

def sTs : String := "20260101_000000"

def wCodeX : String := "x"

def wParseBad : String → Option String := fun _ => some sBoom

def wParseOk : String → Option String := fun _ => none

def wErrsX : List String :=
  [reqMissingMsg pWBC, reqMissingMsg pCanOpen, reqMissingMsg pConfirm]

def wOld : String := "old"

def wGoodCode : String :=
  "WeeklyBudgetController can_open_trade confirm_trade_entry"

def wSp : String := ModifierCfg.strategyPath {}

def wBp : String := backupPath {} 1 sTs sEmpty

def wFs0 : FS := [(wSp, wOld)]

def wFs2 : FS := [(wSp, wGoodCode), (wBp, wOld)]

def wRes : PatchResult :=
  { success := true, backup_path := wBp, errors := [], warnings := [] }

def rNeg : EvalResult := { passed := false, score := -100 }

def r100 : EvalResult := { passed := true, score := 100 }

def r69 : EvalResult := { passed := true, score := 69 }

def r50 : EvalResult := { passed := true, score := 50 }

def roundsPrefix (f : ℕ → IterRecord) : ℕ → List IterRecord
  | 0 => []
  | m + 1 => roundsPrefix f m ++ [f (m + 1)]

def wfNone : ℕ → Bool × String := fun _ => (true, sEmpty)

def fConst : ℕ → IterRecord :=
  fun n => { round := n, score := 5, status := sSuccess, next_action := sEmpty }

def fInc : ℕ → IterRecord :=
  fun n => { round := n, score := n, status := sSuccess, next_action := sEmpty }

/-- The specification's signed gap: `current − target` for
loss/drawdown-style metrics, `target − current` otherwise, so positive
always means "needs attention". -/
def specGapDelta (metrics : AListQ) (p : String × ℚ) : ℚ :=
  if lowerIsBetter p.1 then getD metrics p.1 0 - p.2
  else p.2 - getD metrics p.1 0

/-- The specification's weighted sum over a list of profile entries:
only strictly positive deltas contribute `weight * (delta/|target|)²`. -/
def specNormSqAux (cfg : OptimizerCfg) (metrics : AListQ) : AListQ → ℚ
  | [] => 0
  | p :: L =>
    (if 0 < specGapDelta metrics p then
      getD cfg.weights p.1 1 * (specGapDelta metrics p / |p.2|) ^ 2
    else 0) + specNormSqAux cfg metrics L

/-- The specification's formula for the squared weighted norm: the sum
over the target profile's metrics with strictly positive delta of
`weight * (delta/|target|)²`. -/
def specNormSq (cfg : OptimizerCfg) (metrics : AListQ) : ℚ :=
  specNormSqAux cfg metrics cfg.target_profile

def cfgC9 : OptimizerCfg :=
  { target_profile := [(kMonthly, 1)], fine_tune_threshold := 3/10,
    weights := [(kMonthly, 1)] }

def mC9 : AListQ := [(kMonthly, 1 + 1/10000000)]

def cfgW9 : OptimizerCfg :=
  { target_profile := [(kMonthly, 100), (kMaxLoss, 200)],
    fine_tune_threshold := 3/10, weights := DEFAULT_WEIGHTS }

def mW9 : AListQ := [(kMonthly, 100), (kMaxLoss, 200)]

/-! ## Theorems

General-purpose lemmas about the embedding, then one theorem per claim
of the specification (with witnesses and counterexamples). -/

theorem substrP_appendR {s t : String} (u : String) (h : substrP s t) :
    substrP s (t ++ u) := by
  unfold substrP at *
  rw [String.data_append]
  exact h.trans (List.prefix_append _ _).isInfix

theorem substrP_appendL {s u : String} (t : String) (h : substrP s u) :
    substrP s (t ++ u) := by
  unfold substrP at *
  rw [String.data_append]
  exact h.trans ((List.suffix_append _ _).isInfix)

theorem substrP_refl (s : String) : substrP s s := List.infix_refl _

theorem getD_cons_self (k : String) (v : ℚ) (m : AListQ) (d : ℚ) :
    getD ((k, v) :: m) k d = v := by
  simp [getD]

theorem getD_cons_ne (k' k : String) (v : ℚ) (m : AListQ) (d : ℚ)
    (h : (k' == k) = false) : getD ((k', v) :: m) k d = getD m k d := by
  simp [getD, h]

/-- Helper: the composite score of `evaluate` as the specification's
formula (weights times components, duration falling back to 24 when
non-positive). -/
theorem evaluate_score_eq (cfg : EvaluatorCfg) (m : AListQ) :
    (evaluate cfg m).score =
      roundTo 2
        (cfg.weights.monthly_avg_profit_w * getD m kMonthly 0 +
         cfg.weights.weekly_target_hit_rate_w * (getD m kWtr 0 * 100) -
         cfg.weights.max_monthly_loss_w * getD m kMaxLoss 0 +
         cfg.weights.trade_efficiency_w *
           (100 / (if getD m kDur 24 ≤ 0 then 24 else getD m kDur 24))) := by
  simp only [evaluate, calculate_score]
  congr 1
  ring

/-- C4: for every metrics record, `Evaluator.evaluate` returns a score
equal to `round(w1*monthly_avg_profit + w2*(weekly_hit_rate*100) -
w3*max_period_loss + w4*(100/avg_trade_duration_hours), 2)` with the
duration replaced by the fallback 24 whenever it is ≤ 0; inputs with
duration 0 and −5 score the same as duration 24, and the breakdown
retains each unrounded term. -/
theorem c4_evaluate_score (cfg : EvaluatorCfg) (m : AListQ) :
    ((evaluate cfg m).score =
      roundTo 2
        (cfg.weights.monthly_avg_profit_w * getD m kMonthly 0 +
         cfg.weights.weekly_target_hit_rate_w * (getD m kWtr 0 * 100) -
         cfg.weights.max_monthly_loss_w * getD m kMaxLoss 0 +
         cfg.weights.trade_efficiency_w *
           (100 / (if getD m kDur 24 ≤ 0 then 24 else getD m kDur 24)))) ∧
    (evaluate cfg ((kDur, 0) :: m)).score = (evaluate cfg ((kDur, 24) :: m)).score ∧
    (evaluate cfg ((kDur, -5) :: m)).score = (evaluate cfg ((kDur, 24) :: m)).score ∧
    (evaluate cfg m).score_breakdown =
      [(kBreakProfit, getD m kMonthly 0 * cfg.weights.monthly_avg_profit_w),
       (kBreakWtr, getD m kWtr 0 * 100 * cfg.weights.weekly_target_hit_rate_w),
       (kBreakLoss, -getD m kMaxLoss 0 * cfg.weights.max_monthly_loss_w),
       (kBreakEff,
        1 / (if getD m kDur 24 ≤ 0 then 24 else getD m kDur 24) *
          cfg.weights.trade_efficiency_w * 100)] := by
  have h1 : (kDur == kMonthly) = false := by decide
  have h2 : (kDur == kWtr) = false := by decide
  have h3 : (kDur == kMaxLoss) = false := by decide
  refine ⟨evaluate_score_eq cfg m, ?_, ?_, ?_⟩
  · rw [evaluate_score_eq, evaluate_score_eq]
    simp only [getD, h1, h2, h3, beq_self_eq_true, if_true, if_false]
    norm_num
  · rw [evaluate_score_eq, evaluate_score_eq]
    simp only [getD, h1, h2, h3, beq_self_eq_true, if_true, if_false]
    norm_num
  · simp only [evaluate, calculate_score]

/-- C5: for every metrics record, `evaluate` returns `passed = true` iff
`gate_failures` is empty; and for any metrics meeting every
`PassCriteria` threshold (average-monthly-profit strictly above its
minimum), `passed = true` with `gate_failures = []`. -/
theorem c5_evaluate_passed_iff (cfg : EvaluatorCfg) (m : AListQ) :
    ((evaluate cfg m).passed = true ↔ (evaluate cfg m).gate_failures = []) ∧
    (cfg.criteria.weekly_target_hit_rate_min ≤ getD m kWtr 0 →
     getD m kMdd 0 ≤ cfg.criteria.max_drawdown_pct_max →
     cfg.criteria.total_trades_min ≤ getD m kTrades 0 →
     getD m kStake 0 ≤ cfg.criteria.stake_limit_hit_count_max →
     cfg.criteria.monthly_net_profit_avg_min < getD m kMonthly 0 →
     (evaluate cfg m).passed = true ∧ (evaluate cfg m).gate_failures = []) := by
  constructor
  · simp only [evaluate]
    rw [Nat.beq_eq_true_eq]
    exact List.length_eq_zero
  · intro h1 h2 h3 h4 h5
    have hg : gate_check cfg.criteria m = [] := by
      simp only [gate_check]
      rw [if_neg (not_lt.mpr h1), if_neg (not_lt.mpr h2),
          if_neg (not_lt.mpr h3), if_neg (not_lt.mpr h4),
          if_neg (not_le.mpr h5)]
      rfl
    simp [evaluate, hg]

/-- Witness for C5: concrete metrics meeting every default threshold pass
with no gate failures. -/
theorem c5_witness :
    (evaluate {} mC5).passed = true ∧ (evaluate {} mC5).gate_failures = [] :=
  (c5_evaluate_passed_iff {} mC5).2
    (by rw [show getD mC5 kWtr 0 = 1/2 from rfl]; norm_num)
    (by rw [show getD mC5 kMdd 0 = 10 from rfl]; norm_num)
    (by rw [show getD mC5 kTrades 0 = 100 from rfl]; norm_num)
    (by rw [show getD mC5 kStake 0 = 0 from rfl])
    (by rw [show getD mC5 kMonthly 0 = 5 from rfl]; norm_num)

theorem settle_week_snd (cfg : SettleCfg) (history : List SettleReport)
    (wid : String) (pnl : ℚ) :
    (settle_week cfg history wid pnl).2 =
      history ++ [(settle_week cfg history wid pnl).1] := by
  unfold settle_week
  dsimp only
  split <;> rfl

theorem settle_week_cd (cfg : SettleCfg) (history : List SettleReport)
    (wid : String) (pnl : ℚ) :
    (settle_week cfg history wid pnl).1.cooldown_triggered =
      check_cooldown cfg (history ++ [initial_report cfg wid pnl]) := by
  unfold settle_week
  dsimp only
  split
  · rename_i h
    rw [h]
  · rename_i h
    rw [Bool.not_eq_true] at h
    rw [h]
    rfl

theorem settle_week_status_eq (cfg : SettleCfg) (history : List SettleReport)
    (wid : String) (pnl : ℚ) :
    (settle_week cfg history wid pnl).1.status =
      (initial_report cfg wid pnl).status := by
  unfold settle_week
  dsimp only
  split <;> rfl

theorem settle_week_pnl_eq (cfg : SettleCfg) (history : List SettleReport)
    (wid : String) (pnl : ℚ) :
    (settle_week cfg history wid pnl).1.weekly_pnl = pnl := by
  unfold settle_week
  dsimp only
  split <;> rfl

theorem initial_report_status (cfg : SettleCfg) (wid : String) (pnl : ℚ) :
    (initial_report cfg wid pnl).status =
      (if pnl ≥ cfg.weekly_target then sTargetHit
       else if pnl ≤ -cfg.weekly_budget then sBudgetExhausted
       else sWeekEnd) := by
  unfold initial_report
  by_cases h1 : pnl ≥ cfg.weekly_target <;>
    by_cases h2 : pnl ≤ -cfg.weekly_budget <;>
      simp [h1, h2]

/-- C7: every settled week's status is exactly one of the three values,
decided in fixed priority order (target, then budget, then forced
settlement), and whenever no cooldown triggers the next-week action is
`reset_budget_100` regardless of the preceding history. -/
theorem c7_settle_week_status (cfg : SettleCfg) (history : List SettleReport)
    (wid : String) (pnl : ℚ) :
    ((settle_week cfg history wid pnl).1.status =
      (if pnl ≥ cfg.weekly_target then sTargetHit
       else if pnl ≤ -cfg.weekly_budget then sBudgetExhausted
       else sWeekEnd)) ∧
    ((settle_week cfg history wid pnl).1.status = sTargetHit ∨
     (settle_week cfg history wid pnl).1.status = sBudgetExhausted ∨
     (settle_week cfg history wid pnl).1.status = sWeekEnd) ∧
    ((settle_week cfg history wid pnl).1.cooldown_triggered = false →
     (settle_week cfg history wid pnl).1.action_next_week = sReset) := by
  have hstat := (settle_week_status_eq cfg history wid pnl).trans
    (initial_report_status cfg wid pnl)
  refine ⟨hstat, ?_, ?_⟩
  · rw [hstat]
    split_ifs <;> simp
  · intro h
    unfold settle_week at h ⊢
    dsimp only at h ⊢
    split at h
    · simp at h
    · rename_i hq
      rw [Bool.not_eq_true] at hq
      rw [hq]
      rfl

/-- Witness for C7: with the default budget/target, pnl 1200 hits the
target, −100 exhausts the budget, 300 settles the week with the
reset-budget action. -/
theorem c7_witness :
    (settle_week wCfg [] sWk 1200).1.status = sTargetHit ∧
    (settle_week wCfg [] sWk (-100)).1.status = sBudgetExhausted ∧
    (settle_week wCfg [] sWk 300).1.status = sWeekEnd ∧
    (settle_week wCfg [] sWk 300).1.action_next_week = sReset := by
  refine ⟨?_, ?_, ?_, ?_⟩
  · have h := (c7_settle_week_status wCfg [] sWk 1200).1
    rw [if_pos (by norm_num [wCfg])] at h
    exact h
  · have h := (c7_settle_week_status wCfg [] sWk (-100)).1
    rw [if_neg (by norm_num [wCfg]), if_pos (by norm_num [wCfg])] at h
    exact h
  · have h := (c7_settle_week_status wCfg [] sWk 300).1
    rw [if_neg (by norm_num [wCfg]), if_neg (by norm_num [wCfg])] at h
    exact h
  · refine (c7_settle_week_status wCfg [] sWk 300).2.2 ?_
    rw [settle_week_cd]
    rfl

theorem all_pair_iff (t : List SettleReport) :
    (((t.all fun r => r.status != sTargetHit) &&
      (t.all fun r => decide (r.weekly_pnl < 0))) = true ↔
     ∀ r ∈ t, r.status ≠ sTargetHit ∧ r.weekly_pnl < 0) := by
  simp only [Bool.and_eq_true, List.all_eq_true, bne_iff_ne, decide_eq_true_eq]
  constructor
  · rintro ⟨h1, h2⟩ r hr
    exact ⟨h1 r hr, h2 r hr⟩
  · intro h
    exact ⟨fun r hr => (h r hr).1, fun r hr => (h r hr).2⟩

/-- Helper: the cooldown check fires exactly when the history has at
least N entries and the last N all miss the target with strictly
negative PnL. -/
theorem check_cooldown_iff (cfg : SettleCfg) (hn : 1 ≤ cfg.cooldown_threshold)
    (l : List SettleReport) :
    (check_cooldown cfg l = true ↔
     (cfg.cooldown_threshold ≤ l.length ∧
      ∀ r ∈ l.drop (l.length - cfg.cooldown_threshold),
        r.status ≠ sTargetHit ∧ r.weekly_pnl < 0)) := by
  unfold check_cooldown pySliceLast
  have hn0 : cfg.cooldown_threshold ≠ 0 := by omega
  by_cases hlen : l.length < cfg.cooldown_threshold
  · rw [if_pos hlen]
    simp only [Bool.false_eq_true, false_iff, not_and]
    intro hle
    omega
  · rw [if_neg hlen, if_neg hn0]
    rw [all_pair_iff]
    exact ⟨fun h => ⟨by omega, h⟩, fun h => h.2⟩

/-- Helper: the cooldown window predicate only reads `status` and
`weekly_pnl`, so the last entry may be replaced by one agreeing on those
fields. -/
theorem window_congr (n : ℕ) (hn : 1 ≤ n) (history : List SettleReport)
    (a b : SettleReport) (hs : a.status = b.status)
    (hp : a.weekly_pnl = b.weekly_pnl) :
    ((n ≤ (history ++ [a]).length ∧
      ∀ r ∈ (history ++ [a]).drop ((history ++ [a]).length - n),
        r.status ≠ sTargetHit ∧ r.weekly_pnl < 0) ↔
     (n ≤ (history ++ [b]).length ∧
      ∀ r ∈ (history ++ [b]).drop ((history ++ [b]).length - n),
        r.status ≠ sTargetHit ∧ r.weekly_pnl < 0)) := by
  have hk : ∀ c : SettleReport,
      (history ++ [c]).length - n ≤ history.length := by
    intro c
    simp only [List.length_append, List.length_singleton]
    omega
  have hlen : ∀ c : SettleReport, (history ++ [c]).length = history.length + 1 := by
    intro c
    simp
  rw [List.drop_append_of_le_length (hk a), List.drop_append_of_le_length (hk b),
      hlen a, hlen b]
  constructor
  · rintro ⟨h1, h2⟩
    refine ⟨h1, ?_⟩
    intro r hr
    rcases List.mem_append.mp hr with hr' | hr'
    · exact h2 r (List.mem_append.mpr (Or.inl (by simpa [hlen] using hr')))
    · have := h2 a (List.mem_append.mpr (Or.inr (List.mem_singleton_self a)))
      rcases List.mem_singleton.mp hr' with rfl
      rw [← hs, ← hp]
      exact this
  · rintro ⟨h1, h2⟩
    refine ⟨h1, ?_⟩
    intro r hr
    rcases List.mem_append.mp hr with hr' | hr'
    · exact h2 r (List.mem_append.mpr (Or.inl (by simpa [hlen] using hr')))
    · have := h2 b (List.mem_append.mpr (Or.inr (List.mem_singleton_self b)))
      rcases List.mem_singleton.mp hr' with rfl
      rw [hs, hp]
      exact this

theorem settle_week_action_cd (cfg : SettleCfg) (history : List SettleReport)
    (wid : String) (pnl : ℚ) :
    (settle_week cfg history wid pnl).1.cooldown_triggered = true →
    (settle_week cfg history wid pnl).1.action_next_week = sCooldownDryrun := by
  intro h
  unfold settle_week at h ⊢
  dsimp only at h ⊢
  split at h
  · rename_i hq
    rw [hq]
    rfl
  · exact absurd h (by simp [initial_report])

/-- C8: `settle_week` sets `cooldown_triggered = true` (with
`action_next_week = "cooldown_dryrun"`) iff the history including the
week just settled has at least N entries whose most recent N all have
status ≠ TARGET_HIT and strictly negative PnL; fewer than N settled weeks
never trigger, and a TARGET_HIT or non-negative-PnL week in the window
prevents triggering. -/
theorem c8_settle_week_cooldown (cfg : SettleCfg) (history : List SettleReport)
    (wid : String) (pnl : ℚ) (hn : 1 ≤ cfg.cooldown_threshold) :
    ((settle_week cfg history wid pnl).1.cooldown_triggered = true ↔
      (cfg.cooldown_threshold ≤ (settle_week cfg history wid pnl).2.length ∧
       ∀ r ∈ (settle_week cfg history wid pnl).2.drop
           ((settle_week cfg history wid pnl).2.length - cfg.cooldown_threshold),
         r.status ≠ sTargetHit ∧ r.weekly_pnl < 0)) ∧
    ((settle_week cfg history wid pnl).2.length < cfg.cooldown_threshold →
      (settle_week cfg history wid pnl).1.cooldown_triggered = false) ∧
    ((∃ r ∈ (settle_week cfg history wid pnl).2.drop
         ((settle_week cfg history wid pnl).2.length - cfg.cooldown_threshold),
        r.status = sTargetHit ∨ 0 ≤ r.weekly_pnl) →
      (settle_week cfg history wid pnl).1.cooldown_triggered = false) ∧
    ((settle_week cfg history wid pnl).1.cooldown_triggered = true →
      (settle_week cfg history wid pnl).1.action_next_week = sCooldownDryrun) := by
  have hs : (initial_report cfg wid pnl).status =
      (settle_week cfg history wid pnl).1.status :=
    (settle_week_status_eq cfg history wid pnl).symm
  have hp : (initial_report cfg wid pnl).weekly_pnl =
      (settle_week cfg history wid pnl).1.weekly_pnl := by
    rw [settle_week_pnl_eq]
    rfl
  have hiff : (settle_week cfg history wid pnl).1.cooldown_triggered = true ↔
      (cfg.cooldown_threshold ≤ (settle_week cfg history wid pnl).2.length ∧
       ∀ r ∈ (settle_week cfg history wid pnl).2.drop
           ((settle_week cfg history wid pnl).2.length - cfg.cooldown_threshold),
         r.status ≠ sTargetHit ∧ r.weekly_pnl < 0) := by
    rw [settle_week_cd, settle_week_snd,
        check_cooldown_iff cfg hn (history ++ [initial_report cfg wid pnl])]
    exact window_congr cfg.cooldown_threshold hn history
      (initial_report cfg wid pnl) ((settle_week cfg history wid pnl).1) hs hp
  refine ⟨hiff, ?_, ?_, settle_week_action_cd cfg history wid pnl⟩
  · intro hlen
    rcases Bool.eq_false_or_eq_true
        ((settle_week cfg history wid pnl).1.cooldown_triggered) with h | h
    · obtain ⟨hle, -⟩ := hiff.mp h
      omega
    · exact h
  · rintro ⟨r, hr, hbad⟩
    rcases Bool.eq_false_or_eq_true
        ((settle_week cfg history wid pnl).1.cooldown_triggered) with h | h
    case inr => exact h
    case inl =>
      obtain ⟨-, hall⟩ := hiff.mp h
      obtain ⟨hstat, hneg⟩ := hall r hr
      rcases hbad with hb | hb
      · exact absurd hb hstat
      · exact absurd hneg (not_lt.mpr hb)

/-- Witness for C8: three consecutive losing below-target weeks trigger
the cooldown on the third; a TARGET_HIT week inside the window prevents
it. -/
theorem c8_witness :
    (settle_week wCfg wHist2 sW3 (-70)).1.cooldown_triggered = true ∧
    (settle_week wCfg wHistB2 sW3 (-70)).1.cooldown_triggered = false := by
  constructor
  · exact (c8_settle_week_cooldown wCfg wHist2 sW3 (-70) (by decide)).1.mpr
      (by decide)
  · exact (c8_settle_week_cooldown wCfg wHistB2 sW3 (-70) (by decide)).2.2.1
      ⟨(settle_week wCfg wHist1 sW2 1500).1, by decide, Or.inl (by decide)⟩

theorem fsGet_fsWrite_self (fs : FS) (p c : String) :
    fsGet (fsWrite fs p c) p = some c := by
  induction fs with
  | nil => simp [fsWrite, fsGet]
  | cons hd t ih =>
    obtain ⟨p', c'⟩ := hd
    by_cases h : p' = p
    · subst h
      simp [fsWrite, fsGet]
    · have hb : (p' == p) = false := beq_eq_false_iff_ne.mpr h
      simp only [fsWrite, fsGet, hb, if_false]
      exact ih

theorem fsGet_fsWrite_ne (fs : FS) (p q c : String) (h : q ≠ p) :
    fsGet (fsWrite fs p c) q = fsGet fs q := by
  induction fs with
  | nil =>
    simp [fsWrite, fsGet, beq_eq_false_iff_ne.mpr (Ne.symm h)]
  | cons hd t ih =>
    obtain ⟨p', c'⟩ := hd
    by_cases hp : p' = p
    · subst hp
      have hq : (p' == q) = false := beq_eq_false_iff_ne.mpr (fun hh => h hh.symm)
      simp [fsWrite, fsGet, hq]
    · have hb : (p' == p) = false := beq_eq_false_iff_ne.mpr hp
      simp only [fsWrite, hb, if_false, fsGet]
      by_cases hq : p' = q
      · subst hq
        simp
      · simp only [beq_eq_false_iff_ne.mpr hq, if_false]
        exact ih

theorem fsWrite_absent (fs : FS) (p c : String) (h : fsGet fs p = none) :
    fsWrite fs p c = fs ++ [(p, c)] := by
  induction fs with
  | nil => rfl
  | cons hd t ih =>
    obtain ⟨p', c'⟩ := hd
    by_cases hp : p' = p
    · subst hp
      simp [fsGet] at h
    · have hb : (p' == p) = false := beq_eq_false_iff_ne.mpr hp
      simp only [fsGet, hb, if_false] at h
      simp only [fsWrite, hb, Bool.false_eq_true, if_false, List.cons_append,
        List.cons.injEq, true_and]
      exact ih h

theorem backupPath_ne_empty (cfg : ModifierCfg) (round_num : ℕ) (ts desc : String) :
    backupPath cfg round_num ts desc ≠ "" := by
  intro h
  have h2 := congrArg String.length h
  simp only [backupPath, backupFilename, String.length_append] at h2
  have h3 : sSlash.length = 1 := rfl
  have h4 : ("" : String).length = 0 := rfl
  omega

/-- C2: a candidate rejected for a syntax parse failure or any
safety-check hard error yields `success = false` with an empty
`backup_path`, creates no backup, and leaves the filesystem (hence the
live artifact) unchanged. -/
theorem c2_apply_patch_reject (cfg : ModifierCfg) (parse : String → Option String)
    (fs : FS) (code : String) (round_num : ℕ) (desc ts : String) (writeOk : Bool)
    (h : (∃ e, parse code = some e) ∨
         (∃ errs warns, safety_check code = some (errs, warns) ∧ errs ≠ [])) :
    ∃ res, apply_patch cfg parse fs code round_num desc ts writeOk =
        some (res, fs) ∧
      res.success = false ∧ res.backup_path = "" := by
  cases hp : parse code with
  | some e =>
    refine ⟨{ success := false, backup_path := "", errors := [msgSyntaxErr e],
              warnings := [] }, ?_, rfl, rfl⟩
    unfold apply_patch
    rw [hp]
  | none =>
    rcases h with ⟨e, he⟩ | ⟨errs, warns, hsc, hne⟩
    · rw [hp] at he
      exact absurd he (by simp)
    · refine ⟨{ success := false, backup_path := "", errors := errs,
                warnings := warns }, ?_, rfl, rfl⟩
      unfold apply_patch
      rw [hp, hsc]
      dsimp only
      rw [if_neg (by simp [List.isEmpty_iff, hne])]

/-- Witness for C2: a parse failure and a safety rejection (all three
required patterns missing) both leave the filesystem untouched with
`success = false` and an empty backup path. -/
theorem c2_witness :
    (∃ res, apply_patch {} wParseBad [] wCodeX 1 sEmpty sTs true =
        some (res, []) ∧ res.success = false ∧ res.backup_path = "") ∧
    (∃ res, apply_patch {} wParseOk [] wCodeX 1 sEmpty sTs true =
        some (res, []) ∧ res.success = false ∧ res.backup_path = "") := by
  constructor
  · exact c2_apply_patch_reject {} wParseBad [] wCodeX 1 sEmpty sTs true
      (Or.inl ⟨sBoom, rfl⟩)
  · exact c2_apply_patch_reject {} wParseOk [] wCodeX 1 sEmpty sTs true
      (Or.inr ⟨wErrsX, [], rfl, by simp [wErrsX]⟩)

/-- C1: every successful `apply_patch` call on an existing artifact
returns the non-empty backup path chosen by `_backup`; the intermediate
filesystem produced by `_backup` — before the live artifact is
overwritten — already holds the pre-patch artifact content at that path
(write-ahead backup), the final filesystem is exactly that intermediate
state with the live artifact overwritten, and the backup file still holds
the pre-patch content afterwards. -/
theorem c1_apply_patch_writeahead (cfg : ModifierCfg)
    (parse : String → Option String) (fs : FS) (code : String)
    (round_num : ℕ) (desc ts : String) (writeOk : Bool) (oldCode : String)
    (res : PatchResult) (fs' : FS)
    (hold : fsGet fs cfg.strategyPath = some oldCode)
    (happ : apply_patch cfg parse fs code round_num desc ts writeOk =
      some (res, fs'))
    (hsucc : res.success = true)
    (hbp : backupPath cfg round_num ts desc ≠ cfg.strategyPath) :
    res.backup_path = backupPath cfg round_num ts desc ∧
    res.backup_path ≠ "" ∧
    fsGet (backup_step cfg fs round_num ts desc).2
        (backupPath cfg round_num ts desc) = some oldCode ∧
    fs' = atomic_write (backup_step cfg fs round_num ts desc).2
        cfg.strategyPath code ∧
    fsGet fs' res.backup_path = some oldCode := by
  have hbs : backup_step cfg fs round_num ts desc =
      (backupPath cfg round_num ts desc,
       fsWrite fs (backupPath cfg round_num ts desc) oldCode) := by
    unfold backup_step
    rw [hold]
  unfold apply_patch at happ
  cases hp : parse code with
  | some e =>
    rw [hp] at happ
    simp only [Option.some.injEq, Prod.mk.injEq] at happ
    rw [← happ.1] at hsucc
    cases hsucc
  | none =>
    rw [hp] at happ
    cases hsc : safety_check code with
    | none =>
      rw [hsc] at happ
      cases happ
    | some pr =>
      obtain ⟨errs, warns⟩ := pr
      rw [hsc] at happ
      dsimp only at happ
      by_cases he : errs.isEmpty
      · rw [if_pos he] at happ
        cases writeOk with
        | false =>
          simp only [Bool.false_eq_true, if_false, Option.some.injEq,
            Prod.mk.injEq] at happ
          rw [← happ.1] at hsucc
          cases hsucc
        | true =>
          simp only [if_true, Option.some.injEq, Prod.mk.injEq] at happ
          obtain ⟨hres, hfs⟩ := happ
          subst hres
          subst hfs
          rw [hbs]
          refine ⟨rfl, ?_, ?_, rfl, ?_⟩
          · exact fun h => backupPath_ne_empty cfg round_num ts desc h
          · exact fsGet_fsWrite_self fs (backupPath cfg round_num ts desc) oldCode
          · show fsGet (atomic_write
              (fsWrite fs (backupPath cfg round_num ts desc) oldCode)
              cfg.strategyPath code)
              (backupPath cfg round_num ts desc) = some oldCode
            unfold atomic_write
            rw [fsGet_fsWrite_ne _ _ _ _ hbp]
            exact fsGet_fsWrite_self fs (backupPath cfg round_num ts desc) oldCode
      · rw [if_neg he] at happ
        simp only [Option.some.injEq, Prod.mk.injEq] at happ
        rw [← happ.1] at hsucc
        cases hsucc

/-- Witness for C1: a concrete successful patch on the default paths
backs up the pre-patch artifact at a non-empty path before overwriting
the live file. -/
theorem c1_witness :
    wRes.backup_path ≠ "" ∧ fsGet wFs2 wRes.backup_path = some wOld := by
  have h := c1_apply_patch_writeahead {} wParseOk wFs0 wGoodCode 1 sEmpty sTs
    true wOld wRes wFs2 (by decide) rfl rfl (by decide)
  exact ⟨h.2.1, h.2.2.2.2⟩

/-- C10: when the live artifact file is absent, a syntactically valid,
safety-passing patch still succeeds with a non-empty backup path, yet no
file exists at that path, and a subsequent rollback to that round
returns false. -/
theorem c10_missing_artifact (cfg : ModifierCfg)
    (parse : String → Option String) (fs : FS) (code : String)
    (round_num : ℕ) (desc ts : String)
    (hparse : parse code = none)
    (hsafe : ∃ warns, safety_check code = some ([], warns))
    (hmissing : fsGet fs cfg.strategyPath = none)
    (hbpfree : fsGet fs (backupPath cfg round_num ts desc) = none)
    (hbp : backupPath cfg round_num ts desc ≠ cfg.strategyPath)
    (hnoback : ∀ e ∈ fs, matchesBackup cfg round_num e.1 = false)
    (hspnomatch : matchesBackup cfg round_num cfg.strategyPath = false) :
    ∃ res, apply_patch cfg parse fs code round_num desc ts true =
        some (res, fsWrite fs cfg.strategyPath code) ∧
      res.success = true ∧
      res.backup_path = backupPath cfg round_num ts desc ∧
      res.backup_path ≠ "" ∧
      fsGet (fsWrite fs cfg.strategyPath code) res.backup_path = none ∧
      (rollback cfg (fsWrite fs cfg.strategyPath code) round_num).1 = false := by
  obtain ⟨warns, hsc⟩ := hsafe
  have hbs : backup_step cfg fs round_num ts desc =
      (backupPath cfg round_num ts desc, fs) := by
    unfold backup_step
    rw [hmissing]
  refine ⟨{ success := true, backup_path := backupPath cfg round_num ts desc,
            errors := [], warnings := warns }, ?_, rfl, rfl, ?_, ?_, ?_⟩
  · unfold apply_patch
    rw [hparse, hsc]
    dsimp only
    rw [hbs]
    rfl
  · exact backupPath_ne_empty cfg round_num ts desc
  · show fsGet (fsWrite fs cfg.strategyPath code)
      (backupPath cfg round_num ts desc) = none
    rw [fsGet_fsWrite_ne _ _ _ _ hbp]
    exact hbpfree
  · unfold rollback
    rw [fsWrite_absent fs cfg.strategyPath code hmissing]
    have hfil : ((fs ++ [(cfg.strategyPath, code)]).filter
        (fun e => matchesBackup cfg round_num e.1)) = [] := by
      rw [List.filter_append]
      have h1 : (fs.filter (fun e => matchesBackup cfg round_num e.1)) = [] := by
        rw [List.filter_eq_nil_iff]
        intro e he
        simp [hnoback e he]
      have h2 : (([(cfg.strategyPath, code)] : FS).filter
          (fun e => matchesBackup cfg round_num e.1)) = [] := by
        simp [List.filter, hspnomatch]
      rw [h1, h2]
      rfl
    rw [hfil]
    rfl

/-- Witness for C10: with an empty filesystem (no live artifact), a valid
safety-passing patch succeeds, names a backup path that holds no file,
and rollback to the round fails. -/
theorem c10_witness :
    ∃ res, apply_patch {} wParseOk [] wGoodCode 1 sEmpty sTs true =
        some (res, fsWrite [] (ModifierCfg.strategyPath {}) wGoodCode) ∧
      res.success = true ∧
      res.backup_path = backupPath {} 1 sTs sEmpty ∧
      res.backup_path ≠ "" ∧
      fsGet (fsWrite [] (ModifierCfg.strategyPath {}) wGoodCode)
        res.backup_path = none ∧
      (rollback {} (fsWrite [] (ModifierCfg.strategyPath {}) wGoodCode) 1).1 =
        false :=
  c10_missing_artifact {} wParseOk [] wGoodCode 1 sEmpty sTs rfl ⟨[], rfl⟩
    rfl rfl (by decide) (by simp) (by decide)

/-- Counterexample for C6: the claim says that for every non-zero
in-sample score the comparison computes `ratio = oos.score / is.score`
and fails exactly when that ratio is below the threshold; with
`is = oos = −100` the true ratio is 1 ≥ 0.6, yet the code (which uses
ratio 0 whenever the in-sample score is not positive) reports failure. -/
theorem c6_counterexample :
    (compare_is_oos {} rNeg rNeg).1 = false ∧
    ¬ rNeg.score / rNeg.score < (6/10 : ℚ) := by
  constructor
  · unfold compare_is_oos
    norm_num [rNeg]
  · norm_num [rNeg]

/-- C6 (amended): `compare_is_oos` fails closed with a "cannot evaluate"
message when the in-sample score is 0; for positive in-sample scores it
computes `ratio = oos.score / is.score` and is valid iff the ratio is not
below the threshold, the failure message containing "OVERFITTING" and
naming the ratio and both scores, the passing message containing
"PASSED"; for negative in-sample scores the ratio is taken to be 0, so
the check fails exactly when the threshold is positive. -/
theorem c6_compare_is_oos (cfg : EvaluatorCfg) (isr oosr : EvalResult) :
    (isr.score = 0 →
      compare_is_oos cfg isr oosr = (false, msgIsZero) ∧
      substrP sCannotEvaluate msgIsZero) ∧
    (0 < isr.score →
      (((compare_is_oos cfg isr oosr).1 = true) ↔
        ¬ oosr.score / isr.score < cfg.oos_score_ratio_min) ∧
      (oosr.score / isr.score < cfg.oos_score_ratio_min →
        (compare_is_oos cfg isr oosr).2 =
          msgOverfit (oosr.score / isr.score) cfg.oos_score_ratio_min
            isr.score oosr.score ∧
        substrP sOverfitting (compare_is_oos cfg isr oosr).2 ∧
        substrP (fmtFixed 2 (oosr.score / isr.score))
          (compare_is_oos cfg isr oosr).2 ∧
        substrP (fmtFixed 2 isr.score) (compare_is_oos cfg isr oosr).2 ∧
        substrP (fmtFixed 2 oosr.score) (compare_is_oos cfg isr oosr).2) ∧
      (¬ oosr.score / isr.score < cfg.oos_score_ratio_min →
        substrP sPassed (compare_is_oos cfg isr oosr).2)) ∧
    (isr.score < 0 →
      ((compare_is_oos cfg isr oosr).1 = false ↔
        0 < cfg.oos_score_ratio_min)) := by
  refine ⟨?_, ?_, ?_⟩
  · intro h0
    constructor
    · unfold compare_is_oos
      rw [if_pos h0]
    · decide
  · intro hpos
    have hne : ¬ isr.score = 0 := ne_of_gt hpos
    have hco : compare_is_oos cfg isr oosr =
        (if oosr.score / isr.score < cfg.oos_score_ratio_min then
          (false, msgOverfit (oosr.score / isr.score) cfg.oos_score_ratio_min
            isr.score oosr.score)
        else (true, msgWfPassed (oosr.score / isr.score)
          cfg.oos_score_ratio_min)) := by
      unfold compare_is_oos
      rw [if_neg hne, if_pos hpos]
    refine ⟨?_, ?_, ?_⟩
    · rw [hco]
      by_cases hr : oosr.score / isr.score < cfg.oos_score_ratio_min
      · rw [if_pos hr]
        simp [hr]
      · rw [if_neg hr]
        simp [hr]
    · intro hr
      rw [hco, if_pos hr]
      refine ⟨rfl, ?_, ?_, ?_, ?_⟩
      · unfold msgOverfit
        exact substrP_appendR _ (substrP_appendR _ (substrP_appendR _
          (substrP_appendR _ (substrP_appendR _ (substrP_appendR _
            (substrP_appendR _ (by decide)))))))
      · unfold msgOverfit
        exact substrP_appendR _ (substrP_appendR _ (substrP_appendR _
          (substrP_appendR _ (substrP_appendR _ (substrP_appendR _
            (substrP_appendL _ (substrP_refl _)))))))
      · unfold msgOverfit
        exact substrP_appendR _ (substrP_appendR _
          (substrP_appendL _ (substrP_refl _)))
      · unfold msgOverfit
        exact substrP_appendL _ (substrP_refl _)
    · intro hr
      rw [hco, if_neg hr]
      unfold msgWfPassed
      exact substrP_appendR _ (substrP_appendR _ (substrP_appendR _
        (substrP_appendR _ (by decide))))
  · intro hneg
    have hne : ¬ isr.score = 0 := ne_of_lt hneg
    have hgt : ¬ isr.score > 0 := not_lt.mpr (le_of_lt hneg)
    unfold compare_is_oos
    rw [if_neg hne, if_neg hgt]
    by_cases hm : (0 : ℚ) < cfg.oos_score_ratio_min
    · rw [if_pos hm]
      simp [hm]
    · rw [if_neg hm]
      simp [hm]

/-- Witness for C6: is=100/oos=69 (ratio 0.69) passes with a "PASSED"
message; is=100/oos=50 (ratio 0.50) fails with an "OVERFITTING"
message. -/
theorem c6_witness :
    (compare_is_oos {} r100 r69).1 = true ∧
    substrP sPassed (compare_is_oos {} r100 r69).2 ∧
    (compare_is_oos {} r100 r50).1 = false ∧
    substrP sOverfitting (compare_is_oos {} r100 r50).2 := by
  have h69 := (c6_compare_is_oos {} r100 r69).2.1 (by norm_num [r100])
  have h50 := (c6_compare_is_oos {} r100 r50).2.1 (by norm_num [r100])
  have hr69 : ¬ r69.score / r100.score <
      ({} : EvaluatorCfg).oos_score_ratio_min := by
    norm_num [r69, r100]
  have hr50 : r50.score / r100.score <
      ({} : EvaluatorCfg).oos_score_ratio_min := by
    norm_num [r50, r100]
  refine ⟨h69.1.mpr hr69, h69.2.2 hr69, ?_, (h50.2.1 hr50).2.1⟩
  have hnot : ¬ (compare_is_oos {} r100 r50).1 = true := fun hh =>
    absurd (h50.1.mp hh) (by simpa using hr50)
  rwa [Bool.not_eq_true] at hnot

theorem roundsPrefix_length (f : ℕ → IterRecord) (m : ℕ) :
    (roundsPrefix f m).length = m := by
  induction m with
  | zero => rfl
  | succ m ih => simp [roundsPrefix, ih]

theorem runRound_false (f : ℕ → IterRecord) (wf : ℕ → Bool × String) (n : ℕ) :
    runRound f false wf n = f n := rfl

theorem runLoopAux_step (limit : ℕ) (ewf : Bool) (wf : ℕ → Bool × String)
    (f : ℕ → IterRecord) (fuel : ℕ) (rounds : List IterRecord) :
    runLoopAux limit ewf wf f (fuel + 1) rounds =
      (if (check_termination limit
            (rounds ++ [runRound f ewf wf (rounds.length + 1)])).1 then
        updateLast (rounds ++ [runRound f ewf wf (rounds.length + 1)])
          (sStopSep ++ (check_termination limit
            (rounds ++ [runRound f ewf wf (rounds.length + 1)])).2)
      else runLoopAux limit ewf wf f fuel
        (rounds ++ [runRound f ewf wf (rounds.length + 1)])) := rfl

theorem roundsPrefix_filter_success (f : ℕ → IterRecord)
    (hs : ∀ n, (f n).status = sSuccess) (m : ℕ) :
    ((roundsPrefix f m).filter (fun r => r.status == sSuccess)) =
      roundsPrefix f m := by
  induction m with
  | zero => rfl
  | succ m ih =>
    simp only [roundsPrefix, List.filter_append, ih]
    simp [List.filter, hs (m + 1)]

theorem roundsPrefix_drop3 (f : ℕ → IterRecord) (k : ℕ) :
    (roundsPrefix f (k + 3)).drop (k + 3 - 3) =
      [f (k + 1), f (k + 2), f (k + 3)] := by
  have h : roundsPrefix f (k + 3) =
      roundsPrefix f k ++ [f (k + 1), f (k + 2), f (k + 3)] := by
    show (((roundsPrefix f k ++ [f (k + 1)]) ++ [f (k + 2)]) ++ [f (k + 3)]) = _
    simp
  rw [h, show k + 3 - 3 = k from by omega]
  have h2 := List.drop_left (roundsPrefix f k)
    [f (k + 1), f (k + 2), f (k + 3)]
  rwa [roundsPrefix_length] at h2

/-- Helper: with strictly increasing scores on successful rounds, the
stale-rounds termination check never fires. -/
theorem check_termination_no_stop (f : ℕ → IterRecord)
    (hs : ∀ n, (f n).status = sSuccess)
    (hinc : ∀ n, (f n).score < (f (n + 1)).score) (m : ℕ) :
    check_termination 3 (roundsPrefix f m) = (false, "") := by
  unfold check_termination
  cases m with
  | zero => rfl
  | succ m' =>
    rw [if_neg (by simp [roundsPrefix, List.isEmpty_iff])]
    rw [roundsPrefix_filter_success f hs]
    dsimp only
    rw [roundsPrefix_length]
    by_cases hm : 3 ≤ m' + 1
    · rw [if_pos hm]
      obtain ⟨k, hk⟩ : ∃ k, m' + 1 = k + 3 := ⟨m' + 1 - 3, by omega⟩
      rw [hk]
      have hslice : pySliceLast (roundsPrefix f (k + 3)) 3 =
          [f (k + 1), f (k + 2), f (k + 3)] := by
        unfold pySliceLast
        rw [if_neg (by decide), roundsPrefix_length]
        exact roundsPrefix_drop3 f k
      rw [hslice]
      have hd : decide ((f (k + 2)).score ≤ (f (k + 1)).score) = false :=
        decide_eq_false (not_le.mpr (hinc (k + 1)))
      simp [nonIncreasing, hd]
    · rw [if_neg hm]

/-- Helper: while the termination check stays silent, the loop keeps
extending the round list. -/
theorem runLoopAux_no_stop (wf : ℕ → Bool × String) (f : ℕ → IterRecord)
    (hs : ∀ n, (f n).status = sSuccess)
    (hinc : ∀ n, (f n).score < (f (n + 1)).score) :
    ∀ fuel m, runLoopAux 3 false wf f fuel (roundsPrefix f m) =
      roundsPrefix f (m + fuel) := by
  intro fuel
  induction fuel with
  | zero =>
    intro m
    rfl
  | succ fuel ih =>
    intro m
    rw [runLoopAux_step, runRound_false, roundsPrefix_length]
    have hr : roundsPrefix f m ++ [f (m + 1)] = roundsPrefix f (m + 1) := rfl
    rw [hr, check_termination_no_stop f hs hinc (m + 1)]
    simp only [Bool.false_eq_true, if_false]
    rw [ih (m + 1), show m + 1 + fuel = m + (fuel + 1) from by omega]

/-- C3: with `stale_rounds_limit = 3` and every round succeeding, a
constant score stops the loop after exactly 3 rounds with a final
`next_action` containing "STOP", while strictly increasing scores let
the loop run to `max_rounds` with no early termination. -/
theorem c3_run_iteration_loop :
    (∀ (cap : ℕ) (wf : ℕ → Bool × String) (f : ℕ → IterRecord) (c : ℚ),
      (∀ n, (f n).status = sSuccess) →
      (∀ n, (f n).score = c) →
      3 ≤ cap →
      (run_iteration_loop cap 3 false wf f).length = 3 ∧
      ∃ r, (run_iteration_loop cap 3 false wf f).getLast? = some r ∧
        substrP sStop r.next_action) ∧
    (∀ (cap : ℕ) (wf : ℕ → Bool × String) (f : ℕ → IterRecord),
      (∀ n, (f n).status = sSuccess) →
      (∀ n, (f n).score < (f (n + 1)).score) →
      (run_iteration_loop cap 3 false wf f).length = cap) := by
  constructor
  · intro cap wf f c hs hc hcap
    obtain ⟨k, hk⟩ : ∃ k, cap = k + 3 := ⟨cap - 3, by omega⟩
    subst hk
    have hck1 : check_termination 3 [f 1] = (false, "") := by
      unfold check_termination
      rw [if_neg (by simp)]
      rw [show ([f 1].filter (fun r => r.status == sSuccess)) = [f 1] from by
        simp [List.filter, hs 1]]
      dsimp only
      rw [if_neg (by simp)]
    have hck2 : check_termination 3 [f 1, f 2] = (false, "") := by
      unfold check_termination
      rw [if_neg (by simp)]
      rw [show ([f 1, f 2].filter (fun r => r.status == sSuccess)) =
          [f 1, f 2] from by simp [List.filter, hs 1, hs 2]]
      dsimp only
      rw [if_neg (by simp)]
    have hck3 : check_termination 3 [f 1, f 2, f 3] =
        (true, staleMsg 3 [c, c, c]) := by
      unfold check_termination
      rw [if_neg (by simp)]
      rw [show ([f 1, f 2, f 3].filter (fun r => r.status == sSuccess)) =
          [f 1, f 2, f 3] from by simp [List.filter, hs 1, hs 2, hs 3]]
      dsimp only
      rw [if_pos (by simp)]
      rw [show pySliceLast [f 1, f 2, f 3] 3 = [f 1, f 2, f 3] from rfl]
      rw [show ([f 1, f 2, f 3].map (fun r => r.score)) = [c, c, c] from by
        simp [hc 1, hc 2, hc 3]]
      rw [if_pos (by simp [nonIncreasing])]
    have s1 : runLoopAux 3 false wf f (k + 3) [] =
        runLoopAux 3 false wf f (k + 2) [f 1] := by
      rw [show (k + 3) = (k + 2) + 1 from rfl, runLoopAux_step]
      rw [show (([] : List IterRecord) ++
          [runRound f false wf (List.length [] + 1)]) = [f 1] from rfl]
      rw [hck1]
      simp
    have s2 : runLoopAux 3 false wf f (k + 2) [f 1] =
        runLoopAux 3 false wf f (k + 1) [f 1, f 2] := by
      rw [show (k + 2) = (k + 1) + 1 from rfl, runLoopAux_step]
      rw [show (([f 1] : List IterRecord) ++
          [runRound f false wf (List.length [f 1] + 1)]) = [f 1, f 2] from rfl]
      rw [hck2]
      simp
    have s3 : runLoopAux 3 false wf f (k + 1) [f 1, f 2] =
        [f 1, f 2,
         { f 3 with next_action := sStopSep ++ staleMsg 3 [c, c, c] }] := by
      rw [runLoopAux_step]
      rw [show (([f 1, f 2] : List IterRecord) ++
          [runRound f false wf (List.length [f 1, f 2] + 1)]) =
          [f 1, f 2, f 3] from rfl]
      rw [hck3]
      simp only [if_true]
      rfl
    have hrun : run_iteration_loop (k + 3) 3 false wf f =
        [f 1, f 2,
         { f 3 with next_action := sStopSep ++ staleMsg 3 [c, c, c] }] := by
      unfold run_iteration_loop
      rw [s1, s2, s3]
    rw [hrun]
    refine ⟨rfl, ⟨_, rfl, ?_⟩⟩
    exact substrP_appendR _ (by decide)
  · intro cap wf f hs hinc
    unfold run_iteration_loop
    have h := runLoopAux_no_stop wf f hs hinc cap 0
    rw [show (roundsPrefix f 0) = [] from rfl] at h
    rw [h, roundsPrefix_length]
    omega

/-- Witness for C3: constant scores stop the loop at round 3 of 5 with a
"STOP" next action; strictly increasing scores run all 4 of 4 rounds. -/
theorem c3_witness :
    (run_iteration_loop 5 3 false wfNone fConst).length = 3 ∧
    (∃ r, (run_iteration_loop 5 3 false wfNone fConst).getLast? = some r ∧
      substrP sStop r.next_action) ∧
    (run_iteration_loop 4 3 false wfNone fInc).length = 4 := by
  have h1 := c3_run_iteration_loop.1 5 wfNone fConst 5
    (fun _ => rfl) (fun _ => rfl) (by norm_num)
  have h2 := c3_run_iteration_loop.2 4 wfNone fInc
    (fun _ => rfl)
    (fun n => by
      show ((n : ℚ)) < (((n + 1 : ℕ)) : ℚ)
      exact_mod_cast Nat.lt_succ_self n)
  exact ⟨h1.1, h1.2, h2⟩

theorem weighted_norm_sq_aux (cfg : OptimizerCfg) (m : AListQ) :
    ∀ (L : AListQ) (acc : ℚ),
      (∀ p ∈ L, getD cfg.target_profile p.1 1 = p.2) →
      (∀ p ∈ L, p.2 ≠ 0) →
      ((mkDeltas L m).foldl (fun acc p =>
        if p.2 ≤ 0 then acc
        else acc + getD cfg.weights p.1 1 *
          normDelta p.2 (getD cfg.target_profile p.1 1) ^ 2) acc) =
      acc + specNormSqAux cfg m L := by
  intro L
  induction L with
  | nil =>
    intro acc _ _
    simp [mkDeltas, specNormSqAux]
  | cons p L ih =>
    intro acc hlk hnz
    have hlkp : getD cfg.target_profile p.1 1 = p.2 := hlk p (by simp)
    have hnzp : p.2 ≠ 0 := hnz p (by simp)
    have hmk : mkDeltas (p :: L) m = (p.1, specGapDelta m p) :: mkDeltas L m := rfl
    rw [hmk, List.foldl_cons]
    by_cases hd : specGapDelta m p ≤ 0
    · rw [if_pos hd]
      rw [ih acc (fun q hq => hlk q (by simp [hq])) (fun q hq => hnz q (by simp [hq]))]
      rw [specNormSqAux, if_neg (not_lt.mpr hd)]
      ring
    · rw [if_neg hd]
      rw [hlkp]
      rw [show normDelta (specGapDelta m p) p.2 = specGapDelta m p / |p.2| from by
        unfold normDelta
        rw [if_pos hnzp]]
      rw [ih _ (fun q hq => hlk q (by simp [hq])) (fun q hq => hnz q (by simp [hq]))]
      rw [specNormSqAux, if_pos (lt_of_not_le hd)]
      ring

/-- Helper: under a well-formed target profile (unique keys and non-zero
targets), the code's accumulated squared norm equals the specification's
sum. -/
theorem weighted_norm_sq_eq_spec (cfg : OptimizerCfg) (m : AListQ)
    (hlk : ∀ p ∈ cfg.target_profile, getD cfg.target_profile p.1 1 = p.2)
    (hnz : ∀ p ∈ cfg.target_profile, p.2 ≠ 0) :
    weighted_norm_sq cfg (mkDeltas cfg.target_profile m) = specNormSq cfg m := by
  unfold weighted_norm_sq specNormSq
  rw [weighted_norm_sq_aux cfg m cfg.target_profile 0 hlk hnz]
  ring

theorem weighted_norm_sq_at_target_aux (cfg : OptimizerCfg) (m : AListQ) :
    ∀ (L : AListQ) (acc : ℚ),
      (∀ p ∈ L, getD m p.1 0 = p.2) →
      ((mkDeltas L m).foldl (fun acc p =>
        if p.2 ≤ 0 then acc
        else acc + getD cfg.weights p.1 1 *
          normDelta p.2 (getD cfg.target_profile p.1 1) ^ 2) acc) = acc := by
  intro L
  induction L with
  | nil =>
    intro acc _
    rfl
  | cons p L ih =>
    intro acc hat
    have hmk : mkDeltas (p :: L) m = (p.1, specGapDelta m p) :: mkDeltas L m := rfl
    have hd : specGapDelta m p = 0 := by
      unfold specGapDelta
      rw [hat p (by simp)]
      split <;> ring
    rw [hmk, List.foldl_cons, hd]
    rw [if_pos le_rfl]
    exact ih acc (fun q hq => hat q (by simp [hq]))

/-- Helper: metrics exactly at the target make every delta zero, so the
accumulated squared norm is zero. -/
theorem weighted_norm_sq_at_target (cfg : OptimizerCfg) (m : AListQ)
    (hat : ∀ p ∈ cfg.target_profile, getD m p.1 0 = p.2) :
    weighted_norm_sq cfg (mkDeltas cfg.target_profile m) = 0 := by
  unfold weighted_norm_sq
  exact weighted_norm_sq_at_target_aux cfg m cfg.target_profile 0 hat

theorem roundHEr_nonneg (x : ℝ) (hx : 0 ≤ x) : 0 ≤ roundHEr x := by
  unfold roundHEr
  have hn : (0 : ℤ) ≤ ⌊x⌋ := Int.floor_nonneg.mpr hx
  dsimp only
  split_ifs <;> omega

theorem roundToR_nonneg (d : ℕ) (x : ℝ) (hx : 0 ≤ x) : 0 ≤ roundToR d x := by
  unfold roundToR
  apply div_nonneg
  · exact_mod_cast roundHEr_nonneg (x * 10 ^ d) (by positivity)
  · positivity

theorem roundToR_zero (d : ℕ) : roundToR d 0 = 0 := by
  unfold roundToR roundHEr
  norm_num

/-- Counterexample for C9: the returned deltas are rounded to 6 decimals,
so with target 1 and current 1 + 10⁻⁷ the returned delta is 0, not the
claimed `target − current = −10⁻⁷`. -/
theorem c9_counterexample :
    getD (compute_gap cfgC9 mC9 1).deltas kMonthly 99 = 0 ∧
    ¬ ((1 : ℚ) - (1 + 1/10000000) = 0) := by
  have hlib : lowerIsBetter kMonthly = false := by decide
  have hget : getD mC9 kMonthly 0 = 1 + 1/10000000 :=
    getD_cons_self kMonthly _ [] 0
  have hd0 : mkDeltas cfgC9.target_profile mC9 =
      [(kMonthly, (1 : ℚ) - (1 + 1/10000000))] := by
    show (cfgC9.target_profile).map _ = _
    simp only [cfgC9, List.map_cons, List.map_nil, hlib, Bool.false_eq_true,
      if_false, hget]
  have hr : roundTo 6 ((1 : ℚ) - (1 + 1/10000000)) = 0 := by
    have hx : ((1 : ℚ) - (1 + 1/10000000)) * 10 ^ 6 = -1/10 := by norm_num
    have hfloor : ⌊(-1/10 : ℚ)⌋ = -1 := by
      rw [Int.floor_eq_iff]
      norm_num
    unfold roundTo roundHE
    rw [hx, hfloor]
    norm_num
  constructor
  · have hd : (compute_gap cfgC9 mC9 1).deltas = [(kMonthly, (0 : ℚ))] := by
      show (mkDeltas cfgC9.target_profile mC9).map
        (fun p => (p.1, roundTo 6 p.2)) = _
      rw [hd0]
      simp only [List.map_cons, List.map_nil]
      rw [hr]
    rw [hd]
    exact getD_cons_self kMonthly 0 [] 99
  · norm_num

/-- C9 (amended): `compute_gap` returns deltas equal to the 6-decimal
rounding of the signed gap (`current − target` for loss/drawdown-style
metrics, `target − current` otherwise — positive still means "needs
attention"); for a well-formed target profile (unique keys, non-zero
targets) the returned `weighted_norm` is the 6-decimal rounding of the
square root of the sum over metrics with strictly positive delta of
`weight * (delta/|target|)²`; it is always ≥ 0; metrics exactly at the
target give `weighted_norm = 0`; and `mode = "fine_tune"` exactly when
the unrounded square root is below the configured threshold, else
`"explore"`. -/
theorem c9_compute_gap (cfg : OptimizerCfg) (m : AListQ) (r : ℕ) :
    ((compute_gap cfg m r).deltas =
      cfg.target_profile.map (fun p => (p.1, roundTo 6 (specGapDelta m p)))) ∧
    ((∀ p ∈ cfg.target_profile, getD cfg.target_profile p.1 1 = p.2) →
     (∀ p ∈ cfg.target_profile, p.2 ≠ 0) →
     (compute_gap cfg m r).weighted_norm =
       roundToR 6 (Real.sqrt (specNormSq cfg m))) ∧
    (0 ≤ (compute_gap cfg m r).weighted_norm) ∧
    ((compute_gap cfg m r).mode = sFineTune ↔
      weighted_norm cfg (mkDeltas cfg.target_profile m) <
        (cfg.fine_tune_threshold : ℝ)) ∧
    ((∀ p ∈ cfg.target_profile, getD m p.1 0 = p.2) →
     0 < cfg.fine_tune_threshold →
     (compute_gap cfg m r).weighted_norm = 0 ∧
     (compute_gap cfg m r).mode = sFineTune) := by
  refine ⟨?_, ?_, ?_, ?_, ?_⟩
  · show (mkDeltas cfg.target_profile m).map (fun p => (p.1, roundTo 6 p.2)) = _
    unfold mkDeltas
    rw [List.map_map]
    rfl
  · intro hlk hnz
    show roundToR 6 (weighted_norm cfg (mkDeltas cfg.target_profile m)) = _
    unfold weighted_norm
    rw [weighted_norm_sq_eq_spec cfg m hlk hnz]
  · show 0 ≤ roundToR 6 (weighted_norm cfg (mkDeltas cfg.target_profile m))
    apply roundToR_nonneg
    unfold weighted_norm
    exact Real.sqrt_nonneg _
  · show (if weighted_norm cfg (mkDeltas cfg.target_profile m) <
        (cfg.fine_tune_threshold : ℝ) then sFineTune else sExplore) =
        sFineTune ↔ _
    have hne : sExplore ≠ sFineTune := by decide
    by_cases h : weighted_norm cfg (mkDeltas cfg.target_profile m) <
        (cfg.fine_tune_threshold : ℝ)
    · simp [h]
    · simp [h, hne]
  · intro hat hthr
    have h0 : weighted_norm cfg (mkDeltas cfg.target_profile m) = 0 := by
      unfold weighted_norm
      rw [weighted_norm_sq_at_target cfg m hat]
      norm_num
    constructor
    · show roundToR 6 (weighted_norm cfg (mkDeltas cfg.target_profile m)) = 0
      rw [h0]
      exact roundToR_zero 6
    · show (if weighted_norm cfg (mkDeltas cfg.target_profile m) <
          (cfg.fine_tune_threshold : ℝ) then sFineTune else sExplore) =
          sFineTune
      rw [h0, if_pos (by exact_mod_cast hthr)]

/-- Witness for C9: metrics exactly at an integer-valued target profile
give a zero weighted norm and fine-tune mode. -/
theorem c9_witness :
    (compute_gap cfgW9 mW9 1).weighted_norm = 0 ∧
    (compute_gap cfgW9 mW9 1).mode = sFineTune :=
  (c9_compute_gap cfgW9 mW9 1).2.2.2.2 (by decide) (by norm_num [cfgW9])
